import Mathlib

/-!
Verification of the conversion core of `src/src/main.rs` (Advent-of-Code day 5
style almanac resolver).  The Rust core is shallowly embedded: the `Resource`
enum becomes an inductive with an `Int` magnitude (i64 modelled as a
mathematical integer), the `HashMap` almanac becomes an association list whose
order is the iteration order, a Rust panic becomes `none`, and the single
`println!` diagnostic of `convert_resource` is made explicit in a
state-passing wrapper.
-/

set_option autoImplicit false

/-- Mirrors the Rust struct `FarmMapping { dest_start, src_start, range }`. -/
structure FarmMapping where
  dest_start : Int
  src_start : Int
  range : Int
deriving DecidableEq

/-- Mirrors the Rust enum `Resource`: eight variants, each carrying one i64. -/
inductive Resource where
  | Seed (x : Int)
  | Soil (x : Int)
  | Fertilizer (x : Int)
  | Water (x : Int)
  | Light (x : Int)
  | Temperature (x : Int)
  | Humidity (x : Int)
  | Location (x : Int)
deriving DecidableEq

/-- The payload-free tag of a `Resource` variant, modelling
`std::mem::discriminant`. -/
inductive ResourceKind where
  | Seed
  | Soil
  | Fertilizer
  | Water
  | Light
  | Temperature
  | Humidity
  | Location
deriving DecidableEq

/-- Extract a value's variant tag (`std::mem::discriminant(resource)`). -/
def Resource.discriminant : Resource → ResourceKind
  | .Seed _ => .Seed
  | .Soil _ => .Soil
  | .Fertilizer _ => .Fertilizer
  | .Water _ => .Water
  | .Light _ => .Light
  | .Temperature _ => .Temperature
  | .Humidity _ => .Humidity
  | .Location _ => .Location

/-- Build a `Resource` from a tag and a magnitude. -/
def mkResource : ResourceKind → Int → Resource
  | .Seed, x => .Seed x
  | .Soil, x => .Soil x
  | .Fertilizer, x => .Fertilizer x
  | .Water, x => .Water x
  | .Light, x => .Light x
  | .Temperature, x => .Temperature x
  | .Humidity, x => .Humidity x
  | .Location, x => .Location x

/-- The fixed, totally ordered category sequence the chain walk traverses. -/
def categorySequence : List ResourceKind :=
  [.Seed, .Soil, .Fertilizer, .Water, .Light, .Temperature, .Humidity, .Location]

/-- The immediately preceding category in the fixed sequence (`none` for the
first category, `Seed`). -/
def prevKind : ResourceKind → Option ResourceKind
  | .Seed => none
  | .Soil => some .Seed
  | .Fertilizer => some .Soil
  | .Water => some .Fertilizer
  | .Light => some .Water
  | .Temperature => some .Light
  | .Humidity => some .Temperature
  | .Location => some .Humidity

/-- Mirrors `type Almanac = HashMap<(Resource, Resource), Vec<FarmMapping>>`,
with the map's entry/iteration order made explicit as a list. -/
abbrev Almanac : Type := List ((Resource × Resource) × List FarmMapping)

/-- Mirrors `find_mappings_for_dest_resource`: scan the entries, keep those
whose key's second (destination) component has the same discriminant as the
queried resource, and return the first such entry's rule list, if any. -/
def find_mappings_for_dest_resource (resource : Resource)
    (conversion_table : Almanac) : Option (List FarmMapping) :=
  ((conversion_table.filter fun entry =>
      decide (resource.discriminant = entry.1.2.discriminant)).map
    fun entry => entry.2).head?

/-- Mirrors `get_resource_num`: the carried integer, regardless of variant. -/
def get_resource_num : Resource → Int
  | .Seed x => x
  | .Soil x => x
  | .Fertilizer x => x
  | .Water x => x
  | .Light x => x
  | .Temperature x => x
  | .Humidity x => x
  | .Location x => x

/-- Mirrors `to_previous_resource`: step back one category, carrying `new_num`
when present, else the input's own magnitude.  The Rust
`panic!("Cannot back-convert from a Seed")` is modelled as `none`. -/
def to_previous_resource (resource : Resource) (new_num : Option Int) :
    Option Resource :=
  match resource with
  | .Seed _ => none
  | .Soil x => some (.Seed (new_num.getD x))
  | .Fertilizer x => some (.Soil (new_num.getD x))
  | .Water x => some (.Fertilizer (new_num.getD x))
  | .Light x => some (.Water (new_num.getD x))
  | .Temperature x => some (.Light (new_num.getD x))
  | .Humidity x => some (.Temperature (new_num.getD x))
  | .Location x => some (.Humidity (new_num.getD x))

/-- The `for FarmMapping{..} in mappings` loop inside `convert_resource`:
return on the first rule whose destination range contains `resource_num`,
else fall through to the identity step-back. -/
def convert_loop (resource : Resource) (resource_num : Int) :
    List FarmMapping → Option Resource
  | [] => to_previous_resource resource none
  | fm :: rest =>
    if fm.dest_start ≤ resource_num ∧ resource_num < fm.dest_start + fm.range then
      to_previous_resource resource
        (some (fm.src_start + (resource_num - fm.dest_start)))
    else
      convert_loop resource resource_num rest

/-- Mirrors `convert_resource`: one backward hop through the table chain.
A `to_previous_resource` panic propagates as `none`; the missing-table branch
returns the sentinel `Seed 0` (its diagnostic is modelled in
`convert_resource_run`). -/
def convert_resource (resource : Resource) (conversion_table : Almanac) :
    Option Resource :=
  match find_mappings_for_dest_resource resource conversion_table with
  | some mappings => convert_loop resource (get_resource_num resource) mappings
  | none => some (.Seed 0)

/-- `convert_resource` together with its observable effects: the returned
value, the diagnostic lines printed (exactly one, in the missing-table case),
and the conversion table after the call (the Rust function only holds a
shared borrow, so it is returned unchanged). -/
def convert_resource_run (resource : Resource) (conversion_table : Almanac) :
    Option Resource × List String × Almanac :=
  (convert_resource resource conversion_table,
   if (find_mappings_for_dest_resource resource conversion_table).isNone then
     ["Unable to find mappings for destination resource"]
   else [],
   conversion_table)

/-- A demonstration almanac with a single seed-to-soil table. -/
def demoTables : Almanac :=
  [((Resource.Seed 0, Resource.Soil 0),
    [⟨50, 98, 2⟩, ⟨52, 50, 48⟩])]

/-- A demonstration almanac whose soil-to-fertilizer table holds two
overlapping rules. -/
def demoOverlapTables : Almanac :=
  [((Resource.Soil 0, Resource.Fertilizer 0),
    [⟨50, 98, 10⟩, ⟨50, 200, 10⟩])]

/- Helper lemmas (shared; none of them is a claim's theorem). -/

theorem to_previous_resource_prevKind (r : Resource) (k : ResourceKind)
    (hk : prevKind r.discriminant = some k) (new_num : Option Int) :
    to_previous_resource r new_num =
      some (mkResource k (new_num.getD (get_resource_num r))) := by
  cases r
  case Seed => simp [Resource.discriminant, prevKind] at hk
  all_goals
    simp only [Resource.discriminant, prevKind, Option.some_inj] at hk
    subst hk
    rfl

theorem convert_loop_append_miss (r : Resource) (num : Int)
    (pre rest : List FarmMapping)
    (h : ∀ fm ∈ pre, ¬(fm.dest_start ≤ num ∧ num < fm.dest_start + fm.range)) :
    convert_loop r num (pre ++ rest) = convert_loop r num rest := by
  induction pre with
  | nil => rfl
  | cons fm pre ih =>
    simp only [List.cons_append, convert_loop]
    rw [if_neg (h fm (by simp))]
    exact ih fun fm' hm => h fm' (by simp [hm])

theorem convert_loop_erase_miss (r : Resource) (num : Int) (fm : FarmMapping)
    (hmiss : ¬(fm.dest_start ≤ num ∧ num < fm.dest_start + fm.range))
    (pre post : List FarmMapping) :
    convert_loop r num (pre ++ fm :: post) = convert_loop r num (pre ++ post) := by
  induction pre with
  | nil =>
    simp only [List.nil_append, convert_loop]
    rw [if_neg hmiss]
  | cons fm' pre ih =>
    simp only [List.cons_append, convert_loop]
    split
    · rfl
    · exact ih

theorem find_mappings_eq_find? (r : Resource) (tables : Almanac) :
    find_mappings_for_dest_resource r tables =
      (tables.find? fun entry =>
          decide (r.discriminant = entry.1.2.discriminant)).map
        fun entry => entry.2 := by
  induction tables with
  | nil => rfl
  | cons e rest ih =>
    by_cases h : r.discriminant = e.1.2.discriminant
    · simp [find_mappings_for_dest_resource, List.find?_cons, h,
        List.filter_cons]
    · simp only [find_mappings_for_dest_resource, List.filter_cons,
        List.find?_cons] at *
      simp only [h, decide_False, Bool.false_eq_true, if_false, cond_false]
      exact ih

theorem find_mappings_eq_none_iff (r : Resource) (tables : Almanac) :
    find_mappings_for_dest_resource r tables = none ↔
      ∀ entry ∈ tables, entry.1.2.discriminant ≠ r.discriminant := by
  rw [find_mappings_eq_find?, Option.map_eq_none', List.find?_eq_none]
  simp only [decide_eq_true_eq]
  exact ⟨fun h entry hmem heq => h entry hmem heq.symm,
    fun h entry hmem heq => h entry hmem heq.symm⟩

theorem convert_loop_seed_none (m num : Int) (l : List FarmMapping) :
    convert_loop (Resource.Seed m) num l = none := by
  induction l with
  | nil => rfl
  | cons fm rest ih =>
    simp only [convert_loop]
    split
    · rfl
    · exact ih

/- Claim theorems. -/

/-- Claim C1: for a table reached by `find_mappings_for_dest_resource`, a rule
`fm = (d, s, n)` whose destination range contains the queried magnitude, and
no earlier rule in the list containing it, `convert_resource` returns the
immediately preceding category (per `prevKind`) carrying `s + (m - d)`. -/
theorem convert_resource_range_hit (r : Resource) (tables : Almanac)
    (pre post : List FarmMapping) (fm : FarmMapping) (k : ResourceKind)
    (hfind : find_mappings_for_dest_resource r tables = some (pre ++ fm :: post))
    (hlo : fm.dest_start ≤ get_resource_num r)
    (hhi : get_resource_num r < fm.dest_start + fm.range)
    (hpre : ∀ fm' ∈ pre,
      ¬(fm'.dest_start ≤ get_resource_num r ∧
        get_resource_num r < fm'.dest_start + fm'.range))
    (hk : prevKind r.discriminant = some k) :
    convert_resource r tables =
      some (mkResource k (fm.src_start + (get_resource_num r - fm.dest_start))) := by
  unfold convert_resource
  rw [hfind]
  show convert_loop r (get_resource_num r) (pre ++ fm :: post) = _
  rw [convert_loop_append_miss r _ pre _ hpre]
  simp only [convert_loop]
  rw [if_pos ⟨hlo, hhi⟩]
  rw [to_previous_resource_prevKind r k hk]
  rfl

/-- Claim C1 witness: soil value 79 against the demo table (first rule misses,
second rule `(52, 50, 48)` hits) resolves to `Seed (50 + (79 - 52))`. -/
theorem convert_resource_range_hit_witness :
    convert_resource (Resource.Soil 79) demoTables =
      some (mkResource ResourceKind.Seed (50 + (79 - 52))) :=
  convert_resource_range_hit (Resource.Soil 79) demoTables
    [⟨50, 98, 2⟩] [] ⟨52, 50, 48⟩ ResourceKind.Seed
    rfl (by decide) (by decide) (by decide) rfl

/-- Claim C2: when the matching table exists but none of its rules' destination
ranges contains the queried magnitude, `convert_resource` is an identity
passthrough to the immediately preceding category. -/
theorem convert_resource_identity_fallback (r : Resource) (tables : Almanac)
    (mappings : List FarmMapping) (k : ResourceKind)
    (hfind : find_mappings_for_dest_resource r tables = some mappings)
    (hmiss : ∀ fm ∈ mappings,
      ¬(fm.dest_start ≤ get_resource_num r ∧
        get_resource_num r < fm.dest_start + fm.range))
    (hk : prevKind r.discriminant = some k) :
    convert_resource r tables = some (mkResource k (get_resource_num r)) := by
  unfold convert_resource
  rw [hfind]
  show convert_loop r (get_resource_num r) mappings = _
  have hsplit : mappings = mappings ++ [] := by simp
  rw [hsplit, convert_loop_append_miss r _ mappings [] hmiss]
  show to_previous_resource r none = _
  rw [to_previous_resource_prevKind r k hk]
  rfl

/-- Claim C2 witness: soil value 10 is not covered by either demo rule, so it
resolves to `Seed 10`. -/
theorem convert_resource_identity_fallback_witness :
    convert_resource (Resource.Soil 10) demoTables =
      some (mkResource ResourceKind.Seed 10) :=
  convert_resource_identity_fallback (Resource.Soil 10) demoTables
    [⟨50, 98, 2⟩, ⟨52, 50, 48⟩] ResourceKind.Seed rfl (by decide) rfl

/-- Claim C3: with two rules `fm1` (earlier) and `fm2` (later) both containing
the queried magnitude, and no match before `fm1`, the result is computed from
`fm1`; moreover deleting `fm2` from the table leaves the result unchanged, so
every later matching rule is ignored. -/
theorem convert_resource_first_match_wins (r : Resource) (tables : Almanac)
    (pre mid post : List FarmMapping) (fm1 fm2 : FarmMapping) (k : ResourceKind)
    (hfind : find_mappings_for_dest_resource r tables =
      some (pre ++ fm1 :: (mid ++ fm2 :: post)))
    (hpre : ∀ fm' ∈ pre,
      ¬(fm'.dest_start ≤ get_resource_num r ∧
        get_resource_num r < fm'.dest_start + fm'.range))
    (h1lo : fm1.dest_start ≤ get_resource_num r)
    (h1hi : get_resource_num r < fm1.dest_start + fm1.range)
    (h2lo : fm2.dest_start ≤ get_resource_num r)
    (h2hi : get_resource_num r < fm2.dest_start + fm2.range)
    (hk : prevKind r.discriminant = some k) :
    convert_resource r tables =
      some (mkResource k (fm1.src_start + (get_resource_num r - fm1.dest_start))) ∧
    ∀ tables' : Almanac,
      find_mappings_for_dest_resource r tables' =
        some (pre ++ fm1 :: (mid ++ post)) →
      convert_resource r tables' = convert_resource r tables := by
  have hmain := convert_resource_range_hit r tables pre (mid ++ fm2 :: post)
    fm1 k hfind h1lo h1hi hpre hk
  refine ⟨hmain, fun tables' hfind' => ?_⟩
  have hmain' := convert_resource_range_hit r tables' pre (mid ++ post)
    fm1 k hfind' h1lo h1hi hpre hk
  rw [hmain, hmain']

/-- Claim C3 witness: fertilizer value 55 against a table whose two rules both
contain 55; the earlier rule `(50, 98, 10)` wins, and dropping the later rule
does not change the result. -/
theorem convert_resource_first_match_wins_witness :
    convert_resource (Resource.Fertilizer 55) demoOverlapTables =
      some (mkResource ResourceKind.Soil (98 + (55 - 50))) ∧
    convert_resource (Resource.Fertilizer 55)
        [((Resource.Soil 0, Resource.Fertilizer 0), [⟨50, 98, 10⟩])] =
      convert_resource (Resource.Fertilizer 55) demoOverlapTables :=
  have h := convert_resource_first_match_wins (Resource.Fertilizer 55)
    demoOverlapTables [] [] [] ⟨50, 98, 10⟩ ⟨50, 200, 10⟩ ResourceKind.Soil
    rfl (by decide) (by decide) (by decide) (by decide) (by decide) rfl
  ⟨h.1, h.2 [((Resource.Soil 0, Resource.Fertilizer 0), [⟨50, 98, 10⟩])] rfl⟩

/-- Claim C4: when no almanac entry's destination half matches the queried
variant, the hop does not fail: it emits the diagnostic line and returns the
sentinel `Seed 0`, discarding the input's magnitude. -/
theorem convert_resource_missing_table (r : Resource) (tables : Almanac)
    (h : ∀ entry ∈ tables,
      entry.1.2.discriminant ≠ r.discriminant) :
    convert_resource_run r tables =
      (some (Resource.Seed 0),
       ["Unable to find mappings for destination resource"], tables) := by
  have hfind : find_mappings_for_dest_resource r tables = none := by
    rw [find_mappings_eq_find?]
    rw [List.find?_eq_none.mpr fun entry hmem => by
      simpa using fun heq => h entry hmem heq.symm]
    rfl
  unfold convert_resource_run convert_resource
  rw [hfind]
  rfl

/-- Claim C4 witness: a water value queried against an almanac holding only
the seed-to-soil table takes the degraded fallback. -/
theorem convert_resource_missing_table_witness :
    convert_resource_run (Resource.Water 41) demoTables =
      (some (Resource.Seed 0),
       ["Unable to find mappings for destination resource"], demoTables) :=
  convert_resource_missing_table (Resource.Water 41) demoTables (by decide)

/-- Claim C5: stepping back from the first category (`Seed`) fails fatally
(the Rust `panic!`, modelled as `none`) for every magnitude and every optional
replacement magnitude. -/
theorem to_previous_resource_seed_fatal (x : Int) (new_num : Option Int) :
    to_previous_resource (Resource.Seed x) new_num = none := rfl

/-- Claim C6: stepping back from any non-first category yields a value of the
category immediately preceding it in the fixed eight-category sequence,
carrying the optional argument's value when present, else the input's own
magnitude. -/
theorem to_previous_resource_non_seed (r : Resource) (new_num : Option Int)
    (h : r.discriminant ≠ ResourceKind.Seed) :
    ∃ prev : Resource,
      to_previous_resource r new_num = some prev ∧
      (∃ i : Nat, categorySequence.get? i = some prev.discriminant ∧
        categorySequence.get? (i + 1) = some r.discriminant) ∧
      get_resource_num prev = new_num.getD (get_resource_num r) := by
  cases r
  case Seed => exact absurd rfl h
  case Soil x => exact ⟨.Seed (new_num.getD x), rfl, ⟨0, rfl, rfl⟩, rfl⟩
  case Fertilizer x => exact ⟨.Soil (new_num.getD x), rfl, ⟨1, rfl, rfl⟩, rfl⟩
  case Water x => exact ⟨.Fertilizer (new_num.getD x), rfl, ⟨2, rfl, rfl⟩, rfl⟩
  case Light x => exact ⟨.Water (new_num.getD x), rfl, ⟨3, rfl, rfl⟩, rfl⟩
  case Temperature x => exact ⟨.Light (new_num.getD x), rfl, ⟨4, rfl, rfl⟩, rfl⟩
  case Humidity x => exact ⟨.Temperature (new_num.getD x), rfl, ⟨5, rfl, rfl⟩, rfl⟩
  case Location x => exact ⟨.Humidity (new_num.getD x), rfl, ⟨6, rfl, rfl⟩, rfl⟩

/-- Claim C6 witness: stepping back from `Soil 3` with replacement magnitude 9
lands one sequence position earlier, carrying 9. -/
theorem to_previous_resource_non_seed_witness :
    ∃ prev : Resource,
      to_previous_resource (Resource.Soil 3) (some 9) = some prev ∧
      (∃ i : Nat, categorySequence.get? i = some prev.discriminant ∧
        categorySequence.get? (i + 1) = some (Resource.Soil 3).discriminant) ∧
      get_resource_num prev = (some (9 : Int)).getD (get_resource_num (Resource.Soil 3)) :=
  to_previous_resource_non_seed (Resource.Soil 3) (some 9) (by decide)

/-- Claim C7: `find_mappings_for_dest_resource` returns the rule list of an
almanac entry whose key's second (destination) component has the queried
value's variant identity — magnitudes and the key's source half play no role
in the comparison — and returns `none` exactly when no entry's destination
half matches. -/
theorem find_mappings_for_dest_resource_spec (r : Resource) (tables : Almanac) :
    (∀ ml, find_mappings_for_dest_resource r tables = some ml →
      ∃ key : Resource × Resource, (key, ml) ∈ tables ∧
        key.2.discriminant = r.discriminant) ∧
    (find_mappings_for_dest_resource r tables = none ↔
      ∀ entry ∈ tables, entry.1.2.discriminant ≠ r.discriminant) := by
  refine ⟨fun ml hml => ?_, find_mappings_eq_none_iff r tables⟩
  rw [find_mappings_eq_find?] at hml
  obtain ⟨entry, hfind, hmap⟩ := Option.map_eq_some'.mp hml
  have hp := List.find?_some hfind
  have hmem := List.mem_of_find?_eq_some hfind
  subst hmap
  exact ⟨entry.1, hmem, (of_decide_eq_true hp).symm⟩

/-- Claim C7 witness: a soil query finds the demo seed-to-soil entry, and a
water query (no matching destination) yields the `none` characterisation. -/
theorem find_mappings_for_dest_resource_spec_witness :
    (∃ key : Resource × Resource,
      (key, [(⟨50, 98, 2⟩ : FarmMapping), ⟨52, 50, 48⟩]) ∈ demoTables ∧
      key.2.discriminant = (Resource.Soil 79).discriminant) ∧
    (find_mappings_for_dest_resource (Resource.Water 41) demoTables = none ↔
      ∀ entry ∈ demoTables,
        entry.1.2.discriminant ≠ (Resource.Water 41).discriminant) :=
  ⟨(find_mappings_for_dest_resource_spec (Resource.Soil 79) demoTables).1 _ rfl,
   (find_mappings_for_dest_resource_spec (Resource.Water 41) demoTables).2⟩

/-- Claim C8 counterexample: the claim says every `convert_resource` call on a
`Seed` value triggers the step-back panic, yet on the demo almanac (no entry
has `Seed` as its destination half) the call returns the sentinel `Seed 0`
without failing. -/
theorem convert_resource_seed_counterexample :
    convert_resource (Resource.Seed 7) demoTables = some (Resource.Seed 0) ∧
    convert_resource (Resource.Seed 7) demoTables ≠ none := by
  constructor
  · rfl
  · intro h
    rw [(rfl : convert_resource (Resource.Seed 7) demoTables =
      some (Resource.Seed 0))] at h
    exact Option.noConfusion h

/-- Claim C8 (amended): `convert_resource` on `Seed m` hits the step-back
panic exactly when some almanac entry has `Seed` as its destination half;
otherwise the missing-table fallback returns the sentinel `Seed 0`. -/
theorem convert_resource_seed_input (m : Int) (tables : Almanac) :
    (convert_resource (Resource.Seed m) tables = none ↔
      ∃ entry ∈ tables, entry.1.2.discriminant = ResourceKind.Seed) ∧
    ((∀ entry ∈ tables, entry.1.2.discriminant ≠ ResourceKind.Seed) →
      convert_resource (Resource.Seed m) tables = some (Resource.Seed 0)) := by
  have hiff := find_mappings_eq_none_iff (Resource.Seed m) tables
  cases hfind : find_mappings_for_dest_resource (Resource.Seed m) tables with
  | none =>
    have hall := hiff.mp hfind
    constructor
    · constructor
      · intro hnone
        unfold convert_resource at hnone
        rw [hfind] at hnone
        exact absurd hnone (by simp)
      · rintro ⟨entry, hmem, hdisc⟩
        exact absurd hdisc (hall entry hmem)
    · intro _
      unfold convert_resource
      rw [hfind]
  | some mappings =>
    have hnone : convert_resource (Resource.Seed m) tables = none := by
      unfold convert_resource
      rw [hfind]
      exact convert_loop_seed_none m (get_resource_num (Resource.Seed m)) mappings
    constructor
    · constructor
      · intro _
        by_contra hno
        push_neg at hno
        have hcontra := hiff.mpr hno
        rw [hfind] at hcontra
        exact absurd hcontra (by simp)
      · intro _
        exact hnone
    · intro hall
      have hcontra := hiff.mpr hall
      rw [hfind] at hcontra
      exact absurd hcontra (by simp)

/-- Claim C8 (amended) witness: with a (synthetic) Seed-destination entry the
call panics; on the demo almanac it returns the sentinel. -/
theorem convert_resource_seed_input_witness :
    convert_resource (Resource.Seed 7)
        [((Resource.Soil 0, Resource.Seed 0), [])] = none ∧
    convert_resource (Resource.Seed 7) demoTables = some (Resource.Seed 0) :=
  ⟨(convert_resource_seed_input 7 [((Resource.Soil 0, Resource.Seed 0), [])]).1.mpr
      ⟨((Resource.Soil 0, Resource.Seed 0), []), by simp, rfl⟩,
   (convert_resource_seed_input 7 demoTables).2 (by decide)⟩

/-- Claim C9: the hop is deterministic — equal inputs give equal results —
and the conversion table is returned unchanged by the call (the only other
observable effect is the diagnostic line of the missing-table case). -/
theorem convert_resource_run_pure (r₁ r₂ : Resource) (t₁ t₂ : Almanac)
    (hr : r₁ = r₂) (ht : t₁ = t₂) :
    (convert_resource_run r₁ t₁).1 = (convert_resource_run r₂ t₂).1 ∧
    (convert_resource_run r₁ t₁).2.2 = t₁ := by
  subst hr
  subst ht
  exact ⟨rfl, rfl⟩

/-- Claim C9 witness: the soil-79 query on the demo almanac, twice. -/
theorem convert_resource_run_pure_witness :
    (convert_resource_run (Resource.Soil 79) demoTables).1 =
      (convert_resource_run (Resource.Soil 79) demoTables).1 ∧
    (convert_resource_run (Resource.Soil 79) demoTables).2.2 = demoTables :=
  convert_resource_run_pure (Resource.Soil 79) (Resource.Soil 79)
    demoTables demoTables rfl rfl

/-- Claim C10: a rule of non-positive length is inert — its containment test
holds for no magnitude, and deleting it from the table reached by the lookup
leaves the result of `convert_resource` unchanged. -/
theorem convert_resource_inert_rule (fm : FarmMapping) (hn : fm.range ≤ 0) :
    (∀ m : Int, ¬(fm.dest_start ≤ m ∧ m < fm.dest_start + fm.range)) ∧
    (∀ (r : Resource) (tables tables' : Almanac) (pre post : List FarmMapping),
      find_mappings_for_dest_resource r tables = some (pre ++ fm :: post) →
      find_mappings_for_dest_resource r tables' = some (pre ++ post) →
      convert_resource r tables = convert_resource r tables') := by
  have hmiss : ∀ m : Int, ¬(fm.dest_start ≤ m ∧ m < fm.dest_start + fm.range) := by
    intro m h
    omega
  refine ⟨hmiss, fun r tables tables' pre post hfind hfind' => ?_⟩
  unfold convert_resource
  rw [hfind, hfind']
  show convert_loop r (get_resource_num r) (pre ++ fm :: post) =
    convert_loop r (get_resource_num r) (pre ++ post)
  exact convert_loop_erase_miss r _ fm (hmiss _) pre post

/-- Claim C10 witness: a zero-length rule `(0, 5, 0)` contains no magnitude,
and removing it from a one-rule soil table leaves the result unchanged. -/
theorem convert_resource_inert_rule_witness :
    ¬((0 : Int) ≤ 3 ∧ (3 : Int) < 0 + 0) ∧
    convert_resource (Resource.Soil 10)
        [((Resource.Seed 0, Resource.Soil 0), [⟨0, 5, 0⟩])] =
      convert_resource (Resource.Soil 10)
        [((Resource.Seed 0, Resource.Soil 0), [])] :=
  have h := convert_resource_inert_rule ⟨0, 5, 0⟩ (by decide)
  ⟨h.1 3, h.2 (Resource.Soil 10) _ _ [] [] rfl rfl⟩
